import Mathlib

/-!
Shallow embedding of the mastermind-fastapi game core.

The engine (`app/engine.py`) is a pure scoring function plus a win test;
the in-memory store (`app/store.py`) is a keyed collection of game
sessions together with a scoreboard; the DB-backed store
(`app/repository.py`) mirrors the same logic over rows.  Python ints are
modelled as `Int` where they can be decremented below zero
(`attempts_left`, scoreboard counters) and as `Nat` where they only count
up from zero (feedback counts, list lengths).  Raising `ValueError` is
modelled with `Except String`.  Wall-clock timestamps are not modelled:
no claim mentions them, and history order is kept by list order.
-/

namespace Mastermind

/-- `Code = List[int]` from `app/types.py`. -/
abbrev Code := List Int

/-! ## Engine (`app/engine.py`) -/

/-- The position-matching loop of `score_guess` (`engine.py` lines 30-35):
walk both lists in step, counting indices whose digits agree.  The loop
runs over `i < n` with `n = len(secret)`; lengths are checked equal
before the loop runs, so the simultaneous recursion is exact. -/
def countMatches : Code → Code → Nat
  | a :: s, b :: g => (if a = b then 1 else 0) + countMatches s g
  | _, _ => 0

/-- One iteration of the count-filling loops (`engine.py` lines 42-56):
`counts[digit] += 1`, guarded by `0 <= digit <= 7` ("ignore out of
range").  The 8-slot array is modelled as a function `Int → Nat`. -/
def bumpCounts (counts : Int → Nat) (digit : Int) : Int → Nat :=
  if 0 ≤ digit ∧ digit ≤ 7 then
    fun v => if v = digit then counts digit + 1 else counts v
  else counts

/-- The count-filling loop over one list (`engine.py` lines 38-56),
starting from the all-zero array `[0,0,0,0,0,0,0,0]`. -/
def fillCounts (xs : Code) : Int → Nat :=
  xs.foldl bumpCounts (fun _ => 0)

/-- The overlap loop of `score_guess` (`engine.py` lines 59-67): for
`digit = 0..7` add the smaller of the two counts. -/
def sumMins (sc gc : Int → Nat) : Nat :=
  (List.range 8).foldl
    (fun acc (digit : Nat) =>
      acc + (if sc (digit : Int) < gc (digit : Int) then sc (digit : Int)
             else gc (digit : Int)))
    0

/-- `score_guess` (`engine.py` lines 14-69).  Returns
`(correct_numbers, correct_positions)`; raises `ValueError` when the
lengths differ or are zero. -/
def score_guess (secret guess : Code) : Except String (Nat × Nat) :=
  let n := secret.length
  if n = 0 ∨ guess.length ≠ n then
    Except.error "Secret and guess must be the same non-zero length."
  else
    let correct_positions := countMatches secret guess
    let secret_counts := fillCounts secret
    let guess_counts := fillCounts guess
    let correct_numbers := sumMins secret_counts guess_counts
    Except.ok (correct_numbers, correct_positions)

/-- The all-positions-match loop of `is_win` (`engine.py` lines 80-85):
return `false` at the first mismatching position. -/
def allMatch : Code → Code → Bool
  | a :: s, b :: g => a = b && allMatch s g
  | _, _ => true

/-- `is_win` (`engine.py` lines 71-85): lengths must match and be
positive, and every position must agree. -/
def is_win (secret guess : Code) : Bool :=
  if secret.length = 0 ∨ guess.length ≠ secret.length then false
  else allMatch secret guess

/-! ## Spec-side formulations, written from the spec's words -/

/-- Spec formulation: "the number of indices i with secret[i] ==
guess[i]". -/
def specCorrectPositions (secret guess : Code) : Nat :=
  ((List.range secret.length).filter
    (fun i => secret.getD i 0 = guess.getD i 0)).length

/-- Spec formulation: "sum over every digit value v in the alphabet
[0,7] of min(count of v in secret, count of v in guess)". -/
def specCorrectCount (secret guess : Code) : Nat :=
  ∑ v in Finset.range 8, min (secret.count (v : Int)) (guess.count (v : Int))

/-! ## In-memory store (`app/store.py`)

`GameStatus` and `Difficulty` are the string literals of `app/types.py`
as closed enumerations.  The `Dict[str, Game]` of game sessions is
modelled as a partial map `Nat → Option Game`; `uuid4` freshness is
modelled by handing out `next_id` and incrementing it.  Python ints that
the code can decrement (`attempts_left`) or that persist across games
(scoreboard counters) are `Int`.  The ghost field `outcome_calls` is not
in the source: it counts, per game id, how many times
`_update_stats_on_end` has been invoked, so that the exactly-once claim
can be stated.  Wall-clock fields (`created_at`, `updated_at`,
history timestamps) are omitted: no claim refers to them. -/

inductive GameStatus where
  | in_progress
  | won
  | lost
deriving DecidableEq

inductive Difficulty where
  | easy
  | medium
  | hard
deriving DecidableEq

/-- `GuessEntry` from `store.py` (without the wall-clock timestamp). -/
structure GuessEntry where
  guess : Code
  correct_numbers : Nat
  correct_positions : Nat
  message : String
deriving DecidableEq

/-- `Game` from `store.py` (without the wall-clock timestamps). -/
structure Game where
  secret : Code
  attempts_left : Int
  status : GameStatus
  history : List GuessEntry
  initial_attempts : Int
  difficulty : Difficulty
  hint_used : Bool
  revealed_positions : List Nat
deriving DecidableEq

/-- `Stats` from `store.py`: the scoreboard counters. -/
structure Stats where
  games_started : Int
  games_won : Int
  games_lost : Int
  current_streak : Int
  best_streak : Int
  total_guesses_in_wins : Int
  fastest_win_attempts : Option Int
  easy_started : Int
  medium_started : Int
  hard_started : Int
  easy_won : Int
  medium_won : Int
  hard_won : Int
deriving DecidableEq

/-- `Stats()` with all dataclass defaults: every counter 0, fastest
unset. -/
def zeroStats : Stats :=
  { games_started := 0, games_won := 0, games_lost := 0,
    current_streak := 0, best_streak := 0, total_guesses_in_wins := 0,
    fastest_win_attempts := none,
    easy_started := 0, medium_started := 0, hard_started := 0,
    easy_won := 0, medium_won := 0, hard_won := 0 }

/-- The `GameStore` state: `_games` dict, `_stats`, plus the fresh-id
supply and the ghost invocation counter (see the section comment). -/
structure GameStore where
  games : Nat → Option Game
  next_id : Nat
  stats : Stats
  outcome_calls : Nat → Nat

/-- `GameStore()` constructor state. -/
def initialStore : GameStore :=
  { games := fun _ => none, next_id := 0, stats := zeroStats,
    outcome_calls := fun _ => 0 }

/-- `GameStore.create` (`store.py` lines 69-89): insert a fresh
in-progress game and record the started event on the scoreboard. -/
def createOp (s : GameStore) (secret : Code) (attempts : Int)
    (difficulty : Difficulty) : Game × GameStore :=
  let game : Game :=
    { secret := secret, attempts_left := attempts,
      status := GameStatus.in_progress, history := [],
      initial_attempts := attempts, difficulty := difficulty,
      hint_used := false, revealed_positions := [] }
  let stats0 := s.stats
  let stats1 := { stats0 with games_started := stats0.games_started + 1 }
  let stats2 :=
    match difficulty with
    | Difficulty.easy => { stats1 with easy_started := stats1.easy_started + 1 }
    | Difficulty.hard => { stats1 with hard_started := stats1.hard_started + 1 }
    | Difficulty.medium => { stats1 with medium_started := stats1.medium_started + 1 }
  (game,
   { s with
       games := fun i => if i = s.next_id then some game else s.games i,
       next_id := s.next_id + 1,
       stats := stats2 })

/-- `GameStore._update_stats_on_end` (`store.py` lines 156-180). -/
def updateStatsOnEnd (stats : Stats) (game : Game) (won : Bool) : Stats :=
  if won then
    let s1 := { stats with games_won := stats.games_won + 1 }
    let s2 :=
      match game.difficulty with
      | Difficulty.easy => { s1 with easy_won := s1.easy_won + 1 }
      | Difficulty.hard => { s1 with hard_won := s1.hard_won + 1 }
      | Difficulty.medium => { s1 with medium_won := s1.medium_won + 1 }
    let s3 := { s2 with current_streak := s2.current_streak + 1 }
    let s4 :=
      if s3.current_streak > s3.best_streak then
        { s3 with best_streak := s3.current_streak }
      else s3
    let guesses_used := game.initial_attempts - game.attempts_left
    let s5 := { s4 with
      total_guesses_in_wins := s4.total_guesses_in_wins + guesses_used }
    match s5.fastest_win_attempts with
    | none => { s5 with fastest_win_attempts := some guesses_used }
    | some f =>
      if guesses_used < f then { s5 with fastest_win_attempts := some guesses_used }
      else s5
  else
    { stats with games_lost := stats.games_lost + 1, current_streak := 0 }

/-- The feedback message built in `GameStore.guess`
(`store.py` lines 117-125). -/
def buildMessage (correct_numbers correct_positions : Nat) : String :=
  if correct_numbers = 0 ∧ correct_positions = 0 then "all incorrect"
  else
    toString correct_numbers ++ " correct number(s) and "
      ++ toString correct_positions ++ " correct location(s)"

/-- The status computed by `GameStore.guess` after the decrement
(`store.py` lines 138-144): win takes precedence; otherwise the game is
lost when the decremented `attempts_left` is `<= 0`. -/
def nextStatus (game : Game) (attempt : Code) : GameStatus :=
  if is_win game.secret attempt then GameStatus.won
  else if game.attempts_left - 1 ≤ 0 then GameStatus.lost
  else GameStatus.in_progress

/-- The mutated game of `GameStore.guess` (`store.py` lines 127-144):
history appended, attempts decremented, status recomputed. -/
def applyGuess (game : Game) (attempt : Code)
    (correct_numbers correct_positions : Nat) : Game :=
  { game with
      history := game.history ++
        [{ guess := attempt, correct_numbers := correct_numbers,
           correct_positions := correct_positions,
           message := buildMessage correct_numbers correct_positions }],
      attempts_left := game.attempts_left - 1,
      status := nextStatus game attempt }

/-- `GameStore.guess` (`store.py` lines 95-153).  Returns the Python
return value (`None` when the id is unknown, otherwise the game) or the
raised `ValueError`, together with the store state after the call; a
raise leaves the state unchanged, as every mutation in the source
happens after both guards. -/
def guessOp (s : GameStore) (id : Nat) (attempt : Code) :
    Except String (Option Game) × GameStore :=
  match s.games id with
  | none => (Except.ok none, s)
  | some game =>
    if game.status ≠ GameStatus.in_progress then
      -- game already ended: just return it, ignore extra guesses
      (Except.ok (some game), s)
    else if game.secret.length ≠ attempt.length then
      (Except.error ("Guess must have exactly " ++ toString game.secret.length
        ++ " digits for this game."), s)
    else
      match score_guess game.secret attempt with
      | Except.error e => (Except.error e, s)
      | Except.ok (correct_numbers, correct_positions) =>
        let game1 := applyGuess game attempt correct_numbers correct_positions
        -- old_status == "in_progress" holds here; update the scoreboard
        -- exactly on a transition into a terminal state
        if nextStatus game attempt = GameStatus.won
            ∨ nextStatus game attempt = GameStatus.lost then
          (Except.ok (some game1),
           { s with
               games := fun i => if i = id then some game1 else s.games i,
               stats := updateStatsOnEnd s.stats game1
                 (decide (nextStatus game attempt = GameStatus.won)),
               outcome_calls := fun i =>
                 if i = id then s.outcome_calls i + 1 else s.outcome_calls i })
        else
          (Except.ok (some game1),
           { s with
               games := fun i => if i = id then some game1 else s.games i })

/-- `GameStore.reset_stats` (`store.py` lines 186-188). -/
def resetStats (s : GameStore) : GameStore :=
  { s with stats := zeroStats }

/-- `GameStore.give_hint` (`store.py` lines 191-239).  The
`randbelow`-driven rejection loop is modelled by the parameter `idx`:
the loop terminates exactly when it draws an index below the secret's
length that is not yet revealed, so every possible loop outcome is one
`idx` satisfying the guard; an `idx` failing the guard stands for a
rejected draw and changes nothing. -/
def giveHint (s : GameStore) (id idx : Nat) :
    (String × Option (Nat × Int)) × GameStore :=
  match s.games id with
  | none => (("not_found", none), s)
  | some game =>
    if game.status ≠ GameStatus.in_progress then (("finished", none), s)
    else if game.hint_used then (("already_used", none), s)
    else if game.secret.length ≤ game.revealed_positions.length then
      (("already_used", none), s)
    else if idx < game.secret.length ∧ idx ∉ game.revealed_positions then
      let game1 :=
        { game with hint_used := true,
                    revealed_positions := game.revealed_positions ++ [idx] }
      (("ok", some (idx, game.secret.getD idx 0)),
       { s with games := fun i => if i = id then some game1 else s.games i })
    else (("retry", none), s)

/-- The store states reachable from a fresh `GameStore()` by any
sequence of create, guess, hint and reset-stats operations. -/
inductive Reachable : GameStore → Prop where
  | init : Reachable initialStore
  | create (s : GameStore) (secret : Code) (attempts : Int)
      (difficulty : Difficulty) : Reachable s →
      Reachable (createOp s secret attempts difficulty).2
  | guess (s : GameStore) (id : Nat) (attempt : Code) : Reachable s →
      Reachable (guessOp s id attempt).2
  | hint (s : GameStore) (id idx : Nat) : Reachable s →
      Reachable (giveHint s id idx).2
  | reset (s : GameStore) : Reachable s → Reachable (resetStats s)

/-- 1 when `_update_stats_on_end` must have run for this slot (the game
is terminal), 0 otherwise. -/
def terminalCount : Option Game → Nat
  | none => 0
  | some g => if g.status = GameStatus.in_progress then 0 else 1

/-- The inductive invariant of the store. -/
structure StoreInv (s : GameStore) : Prop where
  fresh : ∀ id, s.next_id ≤ id → s.games id = none
  hist_len : ∀ id g, s.games id = some g →
    (g.history.length : Int) = g.initial_attempts - g.attempts_left
  calls : ∀ id, s.outcome_calls id = terminalCount (s.games id)
  streak_nonneg : 0 ≤ s.stats.current_streak
  streak_le : s.stats.current_streak ≤ s.stats.best_streak

/-! ## DB-backed store (`app/repository.py`)

`DBGameStore` mirrors the in-memory store over SQL rows: a `games` table
(one row per game, no inline history), a `guesses` table (one row per
guess, read back ordered by timestamp — modelled by insertion order) and
a lazily created singleton `stats` row.  All mutations are committed at
the end of `guess`; a raise before the commit leaves the database
unchanged, so each operation is modelled by its net effect. -/

/-- A row of the `games` table (`app/models.py`), without the wall-clock
timestamps and with the UUID key modelled as `Nat`. -/
structure DBGame where
  secret : Code
  attempts_left : Int
  initial_attempts : Int
  status : GameStatus
  difficulty : Difficulty
  hint_used : Bool
  revealed_positions : List Nat
deriving DecidableEq

/-- The `GameState` DTO built by `_to_game_state`
(`repository.py` lines 44-51). -/
structure GameState where
  game_id : Nat
  attempts_left : Int
  status : GameStatus
  history : List GuessEntry
  difficulty : Difficulty
deriving DecidableEq

/-- The database state seen by `DBGameStore`.  As for the in-memory
store, UUID freshness is modelled by handing out `next_id`, and the
ghost field `outcome_calls` (not in the source) counts, per game id, how
many times `_update_stats_on_end` has been invoked, so that the
exactly-once claim can be stated for this variant too. -/
structure DBStore where
  games : Nat → Option DBGame
  guesses : List (Nat × GuessEntry)
  stats : Option Stats
  next_id : Nat
  outcome_calls : Nat → Nat

/-- The history rows of one game, in timestamp (= insertion) order
(`repository.py` lines 111-115). -/
def historyOf (db : DBStore) (id : Nat) : List GuessEntry :=
  (db.guesses.filter (fun p => p.1 = id)).map Prod.snd

/-- `_to_game_state` (`repository.py` lines 44-51). -/
def toGameState (id : Nat) (g : DBGame) (history : List GuessEntry) :
    GameState :=
  { game_id := id, attempts_left := g.attempts_left, status := g.status,
    history := history, difficulty := g.difficulty }

/-- An empty database: no game rows, no guess rows, no stats row yet
(`_get_or_create_stats` creates it lazily). -/
def dbInitialStore : DBStore :=
  { games := fun _ => none, guesses := [], stats := none,
    next_id := 0, outcome_calls := fun _ => 0 }

/-- The stats row as `_get_or_create_stats` (`repository.py` lines
61-68) sees it: the stored row, or a fresh all-zero row when absent. -/
def statsRowOf (db : DBStore) : Stats :=
  match db.stats with
  | some st => st
  | none => zeroStats

/-- The fresh game row built by `DBGameStore.create`
(`repository.py` lines 78-89). -/
def dbNewGame (secret : Code) (attempts : Int) (difficulty : Difficulty) :
    DBGame :=
  { secret := secret, attempts_left := attempts,
    initial_attempts := attempts, status := GameStatus.in_progress,
    difficulty := difficulty, hint_used := false,
    revealed_positions := [] }

/-- The started-counter update of `DBGameStore.create`
(`repository.py` lines 92-100). -/
def bumpStarted (st : Stats) (difficulty : Difficulty) : Stats :=
  let st1 := { st with games_started := st.games_started + 1 }
  match difficulty with
  | Difficulty.easy => { st1 with easy_started := st1.easy_started + 1 }
  | Difficulty.hard => { st1 with hard_started := st1.hard_started + 1 }
  | Difficulty.medium => { st1 with medium_started := st1.medium_started + 1 }

/-- `DBGameStore.create` (`repository.py` lines 72-105): insert a fresh
in-progress row and bump the started counters of the (lazily created)
stats row, committed together. -/
def dbCreate (db : DBStore) (secret : Code) (attempts : Int)
    (difficulty : Difficulty) : GameState × DBStore :=
  let game := dbNewGame secret attempts difficulty
  (toGameState db.next_id game [],
   { db with
       games := fun i => if i = db.next_id then some game else db.games i,
       stats := some (bumpStarted (statsRowOf db) difficulty),
       next_id := db.next_id + 1 })

/-- `DBGameStore._update_stats_on_end` (`repository.py` lines 176-197):
the same counter logic as the in-memory store, written against the
stats row. -/
def dbUpdateStats (stats : Stats) (game : DBGame) (won : Bool) : Stats :=
  if won then
    let s1 := { stats with games_won := stats.games_won + 1 }
    let s2 :=
      match game.difficulty with
      | Difficulty.easy => { s1 with easy_won := s1.easy_won + 1 }
      | Difficulty.hard => { s1 with hard_won := s1.hard_won + 1 }
      | Difficulty.medium => { s1 with medium_won := s1.medium_won + 1 }
    let s3 := { s2 with current_streak := s2.current_streak + 1 }
    let s4 :=
      if s3.current_streak > s3.best_streak then
        { s3 with best_streak := s3.current_streak }
      else s3
    let guesses_used := game.initial_attempts - game.attempts_left
    let s5 := { s4 with
      total_guesses_in_wins := s4.total_guesses_in_wins + guesses_used }
    match s5.fastest_win_attempts with
    | none => { s5 with fastest_win_attempts := some guesses_used }
    | some f =>
      if guesses_used < f then { s5 with fastest_win_attempts := some guesses_used }
      else s5
  else
    { stats with games_lost := stats.games_lost + 1, current_streak := 0 }

/-- `_get_or_create_stats` (`repository.py` lines 61-68) followed by the
update: the row is read (or created all-zero when absent), mutated by
`_update_stats_on_end`, and committed. -/
def dbUpdateStatsOnEnd (db : DBStore) (game : DBGame) (won : Bool) :
    DBStore :=
  { db with stats := some (dbUpdateStats (statsRowOf db) game won) }

/-- The status computed by `DBGameStore.guess` after the decrement
(`repository.py` lines 154-158): win first, else lost when the
decremented `attempts_left` is `<= 0`. -/
def dbNextStatus (game : DBGame) (attempt : Code) : GameStatus :=
  if is_win game.secret attempt then GameStatus.won
  else if game.attempts_left - 1 ≤ 0 then GameStatus.lost
  else GameStatus.in_progress

/-- The guess row inserted by `DBGameStore.guess`
(`repository.py` lines 143-151).  The message text built by its f-string
coincides with the in-memory store's concatenation, so `buildMessage` is
reused. -/
def mkEntry (attempt : Code) (correct_numbers correct_positions : Nat) :
    GuessEntry :=
  { guess := attempt, correct_numbers := correct_numbers,
    correct_positions := correct_positions,
    message := buildMessage correct_numbers correct_positions }

/-- The mutated game row of `DBGameStore.guess`
(`repository.py` lines 153-158): attempts decremented, status
recomputed. -/
def dbApplyGuess (game : DBGame) (attempt : Code) : DBGame :=
  { game with attempts_left := game.attempts_left - 1,
              status := dbNextStatus game attempt }

/-- The database after `DBGameStore.guess` has replaced the game row and
appended the guess row (`repository.py` lines 142-158), before any stats
update. -/
def dbStepStore (db : DBStore) (id : Nat) (attempt : Code)
    (correct_numbers correct_positions : Nat) (game : DBGame) : DBStore :=
  { db with
      games := fun i => if i = id then some (dbApplyGuess game attempt)
        else db.games i,
      guesses := db.guesses
        ++ [(id, mkEntry attempt correct_numbers correct_positions)] }

/-- `DBGameStore.guess` (`repository.py` lines 118-174).  The ghost
counter is bumped exactly where `_update_stats_on_end` is invoked
(lines 162-164). -/
def dbGuess (db : DBStore) (id : Nat) (attempt : Code) :
    Except String (Option GameState) × DBStore :=
  match db.games id with
  | none => (Except.ok none, db)
  | some game =>
    if game.status ≠ GameStatus.in_progress then
      -- return current state without modifying
      (Except.ok (some (toGameState id game (historyOf db id))), db)
    else if game.secret.length ≠ attempt.length then
      (Except.error ("Guess must have exactly " ++ toString game.secret.length
        ++ " digits for this game."), db)
    else
      match score_guess game.secret attempt with
      | Except.error e => (Except.error e, db)
      | Except.ok (correct_numbers, correct_positions) =>
        let game1 := dbApplyGuess game attempt
        let db1 := dbStepStore db id attempt correct_numbers
          correct_positions game
        let db2 :=
          if dbNextStatus game attempt = GameStatus.won
              ∨ dbNextStatus game attempt = GameStatus.lost then
            { dbUpdateStatsOnEnd db1 game1
                (decide (dbNextStatus game attempt = GameStatus.won)) with
              outcome_calls := fun i =>
                if i = id then db.outcome_calls i + 1
                else db.outcome_calls i }
          else db1
        (Except.ok (some (toGameState id game1 (historyOf db2 id))), db2)

/-- `DBGameStore.reset_stats` (`repository.py` lines 218-234): read (or
create) the stats row and zero every field. -/
def dbResetStats (db : DBStore) : DBStore :=
  { db with stats := some zeroStats }

/-- `DBGameStore.give_hint` (`repository.py` lines 236-261), with the
`randbelow` rejection loop modelled by the parameter `idx` exactly as
for the in-memory store. -/
def dbGiveHint (db : DBStore) (id idx : Nat) :
    (String × Option (Nat × Int)) × DBStore :=
  match db.games id with
  | none => (("not_found", none), db)
  | some game =>
    if game.status ≠ GameStatus.in_progress then (("finished", none), db)
    else if game.hint_used then (("already_used", none), db)
    else if game.secret.length ≤ game.revealed_positions.length then
      (("already_used", none), db)
    else if idx < game.secret.length ∧ idx ∉ game.revealed_positions then
      let game1 :=
        { game with hint_used := true,
                    revealed_positions := game.revealed_positions ++ [idx] }
      (("ok", some (idx, game.secret.getD idx 0)),
       { db with games := fun i => if i = id then some game1 else db.games i })
    else (("retry", none), db)

/-- The database states reachable from the empty database by any
sequence of create, guess, hint and reset-stats operations. -/
inductive DBReachable : DBStore → Prop where
  | init : DBReachable dbInitialStore
  | create (db : DBStore) (secret : Code) (attempts : Int)
      (difficulty : Difficulty) : DBReachable db →
      DBReachable (dbCreate db secret attempts difficulty).2
  | guess (db : DBStore) (id : Nat) (attempt : Code) : DBReachable db →
      DBReachable (dbGuess db id attempt).2
  | hint (db : DBStore) (id idx : Nat) : DBReachable db →
      DBReachable (dbGiveHint db id idx).2
  | reset (db : DBStore) : DBReachable db → DBReachable (dbResetStats db)

/-- 1 when `_update_stats_on_end` must have run for this row (the game
is terminal), 0 otherwise. -/
def dbTerminalCount : Option DBGame → Nat
  | none => 0
  | some g => if g.status = GameStatus.in_progress then 0 else 1

/-- The inductive invariant of the DB-backed store. -/
structure DBStoreInv (db : DBStore) : Prop where
  fresh : ∀ id, db.next_id ≤ id → db.games id = none
  rows_lt : ∀ p ∈ db.guesses, p.1 < db.next_id
  hist_len : ∀ id g, db.games id = some g →
    ((historyOf db id).length : Int) = g.initial_attempts - g.attempts_left
  calls : ∀ id, db.outcome_calls id = dbTerminalCount (db.games id)

/-! ## Concrete fixtures used by the witnesses -/

/-- A store holding one fresh easy game with secret `[1,2,3]` and 8
attempts. -/
def storeW : GameStore := (createOp initialStore [1, 2, 3] 8 Difficulty.easy).2

/-- The game stored in `storeW` at id 0. -/
def gameW : Game :=
  { secret := [1, 2, 3], attempts_left := 8,
    status := GameStatus.in_progress, history := [],
    initial_attempts := 8, difficulty := Difficulty.easy,
    hint_used := false, revealed_positions := [] }

/-- `storeW` after the winning guess `[1,2,3]`. -/
def storeW2 : GameStore := (guessOp storeW 0 [1, 2, 3]).2

/-- The game stored in `storeW2` at id 0: the won game. -/
def gameWonW : Game := applyGuess gameW [1, 2, 3] 3 3

/-- A database row for an in-progress game with secret `[1,2,3,4]`. -/
def dbGameW : DBGame :=
  { secret := [1, 2, 3, 4], attempts_left := 10, initial_attempts := 10,
    status := GameStatus.in_progress, difficulty := Difficulty.medium,
    hint_used := false, revealed_positions := [] }

/-- A database row for a finished (won) game. -/
def dbGameWonW : DBGame :=
  { secret := [1, 2, 3, 4], attempts_left := 9, initial_attempts := 10,
    status := GameStatus.won, difficulty := Difficulty.medium,
    hint_used := false, revealed_positions := [] }

/-- A database holding the in-progress row at id 0. -/
def dbInProgW : DBStore :=
  { games := fun i => if i = 0 then some dbGameW else none,
    guesses := [], stats := none, next_id := 1,
    outcome_calls := fun _ => 0 }

/-- A database holding the finished row at id 0. -/
def dbDoneW : DBStore :=
  { games := fun i => if i = 0 then some dbGameWonW else none,
    guesses := [], stats := some zeroStats, next_id := 1,
    outcome_calls := fun i => if i = 0 then 1 else 0 }

/-- The empty database after creating one medium game with secret
`[1,2,3,4]` and 10 attempts: it holds `dbGameW` at id 0. -/
def dbStoreW : DBStore :=
  (dbCreate dbInitialStore [1, 2, 3, 4] 10 Difficulty.medium).2

/-- `dbStoreW` after the winning guess `[1,2,3,4]`. -/
def dbStoreW2 : DBStore := (dbGuess dbStoreW 0 [1, 2, 3, 4]).2

/-! ## Engine lemmas -/

lemma countMatches_cons (a b : Int) (s g : Code) :
    countMatches (a :: s) (b :: g)
      = (if a = b then 1 else 0) + countMatches s g := rfl

lemma specCorrectPositions_cons (a b : Int) (s g : Code) :
    specCorrectPositions (a :: s) (b :: g)
      = (if a = b then 1 else 0) + specCorrectPositions s g := by
  unfold specCorrectPositions
  rw [List.length_cons, List.range_succ_eq_map, List.filter_cons]
  have htail : List.filter (fun i => decide ((a :: s).getD i 0 = (b :: g).getD i 0))
        ((List.range s.length).map Nat.succ)
      = (List.filter (fun i => decide (s.getD i 0 = g.getD i 0))
          (List.range s.length)).map Nat.succ := by
    rw [List.filter_map]
    congr 1
  rw [htail]
  by_cases hab : a = b
  · simp [hab]
    try omega
  · simp [hab]
    try omega

lemma countMatches_eq_spec (secret guess : Code)
    (h : guess.length = secret.length) :
    countMatches secret guess = specCorrectPositions secret guess := by
  induction secret generalizing guess with
  | nil =>
    cases guess with
    | nil => rfl
    | cons b g => simp at h
  | cons a s ih =>
    cases guess with
    | nil => simp at h
    | cons b g =>
      simp only [List.length_cons, Nat.succ.injEq] at h
      rw [countMatches_cons, specCorrectPositions_cons, ih g h]

lemma fillCounts_foldl (xs : Code) (f : Int → Nat) (v : Int)
    (h0 : 0 ≤ v) (h7 : v ≤ 7) :
    xs.foldl bumpCounts f v = f v + xs.count v := by
  induction xs generalizing f with
  | nil => simp
  | cons a xs ih =>
    simp only [List.foldl_cons, List.count_cons]
    rw [ih (bumpCounts f a)]
    unfold bumpCounts
    by_cases hr : 0 ≤ a ∧ a ≤ 7
    · by_cases hav : a = v
      · subst hav
        simp [hr]
        omega
      · have : ¬ v = a := fun hc => hav hc.symm
        simp [hr, this, hav]
    · have hav : ¬ a = v := by
        intro hc
        subst hc
        exact hr ⟨h0, h7⟩
      simp [hr, hav]

lemma fillCounts_eq_count (xs : Code) (v : Int) (h0 : 0 ≤ v) (h7 : v ≤ 7) :
    fillCounts xs v = xs.count v := by
  unfold fillCounts
  rw [fillCounts_foldl xs _ v h0 h7]
  omega

lemma foldl_add_eq_sum (f : Nat → Nat) (n : ℕ) (a : ℕ) :
    (List.range n).foldl (fun acc d => acc + f d) a
      = a + ∑ v in Finset.range n, f v := by
  induction n generalizing a with
  | zero => simp
  | succ n ih =>
    rw [List.range_succ, List.foldl_append, ih, Finset.sum_range_succ]
    simp [Nat.add_assoc]

lemma sumMins_eq_spec (secret guess : Code) :
    sumMins (fillCounts secret) (fillCounts guess)
      = specCorrectCount secret guess := by
  unfold sumMins specCorrectCount
  rw [foldl_add_eq_sum
    (fun d => if fillCounts secret (d : Int) < fillCounts guess (d : Int)
              then fillCounts secret (d : Int) else fillCounts guess (d : Int)) 8 0]
  rw [Nat.zero_add]
  refine Finset.sum_congr rfl (fun v hv => ?_)
  simp only [Finset.mem_range] at hv
  have h0 : (0 : Int) ≤ (v : Int) := Int.ofNat_nonneg v
  have h7 : (v : Int) ≤ 7 := by exact_mod_cast Nat.lt_succ_iff.mp hv
  rw [fillCounts_eq_count secret _ h0 h7, fillCounts_eq_count guess _ h0 h7]
  split <;> omega

lemma sum_indicator_eq (a : Int) :
    (∑ v in Finset.range 8, if ((v : Int) = a) then (1 : ℕ) else 0)
      = if 0 ≤ a ∧ a ≤ 7 then 1 else 0 := by
  by_cases ha : 0 ≤ a ∧ a ≤ 7
  · obtain ⟨h0, h7⟩ := ha
    have hcast : ∀ v : ℕ, ((v : Int) = a) ↔ (v = a.toNat) := by
      intro v
      rw [← Int.toNat_of_nonneg h0, Int.toNat_of_nonneg h0]
      omega
    calc (∑ v in Finset.range 8, if ((v : Int) = a) then (1 : ℕ) else 0)
        = ∑ v in Finset.range 8, if v = a.toNat then (1 : ℕ) else 0 := by
          refine Finset.sum_congr rfl (fun v _ => ?_)
          by_cases hv : (v : Int) = a
          · rw [if_pos hv, if_pos ((hcast v).mp hv)]
          · rw [if_neg hv, if_neg (fun hc => hv ((hcast v).mpr hc))]
      _ = if a.toNat ∈ Finset.range 8 then 1 else 0 :=
          Finset.sum_ite_eq' (Finset.range 8) a.toNat (fun _ => 1)
      _ = if 0 ≤ a ∧ a ≤ 7 then 1 else 0 := by
          have hm : a.toNat ∈ Finset.range 8 := by
            simp only [Finset.mem_range]
            omega
          rw [if_pos hm, if_pos ⟨h0, h7⟩]
  · rw [if_neg ha]
    refine Finset.sum_eq_zero (fun v hv => ?_)
    simp only [Finset.mem_range] at hv
    rw [if_neg]
    intro hc
    apply ha
    constructor <;> omega

lemma sum_count_le_length (g : Code) :
    (∑ v in Finset.range 8, g.count (v : Int)) ≤ g.length := by
  induction g with
  | nil => simp
  | cons a g ih =>
    have hsplit : (∑ v in Finset.range 8, (a :: g).count (v : Int))
        = (∑ v in Finset.range 8, g.count (v : Int))
          + (∑ v in Finset.range 8, if ((v : Int) = a) then (1 : ℕ) else 0) := by
      rw [← Finset.sum_add_distrib]
      refine Finset.sum_congr rfl (fun v _ => ?_)
      rw [List.count_cons]
      congr 1
      simp only [beq_iff_eq]
      by_cases hv : (v : Int) = a
      · rw [if_pos hv.symm, if_pos hv]
      · have hv2 : ¬ a = (v : Int) := fun hc => hv hc.symm
        rw [if_neg hv2, if_neg hv]
    rw [hsplit, sum_indicator_eq]
    simp only [List.length_cons]
    split <;> omega

lemma specCorrectCount_le_length (s g : Code) :
    specCorrectCount s g ≤ s.length := by
  unfold specCorrectCount
  calc (∑ v in Finset.range 8, min (s.count (v : Int)) (g.count (v : Int)))
      ≤ ∑ v in Finset.range 8, s.count (v : Int) :=
        Finset.sum_le_sum (fun v _ => min_le_left _ _)
    _ ≤ s.length := sum_count_le_length s

lemma specCorrectCount_cons_le (a b : Int) (s g : Code) :
    specCorrectCount s g ≤ specCorrectCount (a :: s) (b :: g) := by
  unfold specCorrectCount
  refine Finset.sum_le_sum (fun v _ => ?_)
  have h1 : s.count (v : Int) ≤ (a :: s).count (v : Int) := by
    rw [List.count_cons]
    omega
  have h2 : g.count (v : Int) ≤ (b :: g).count (v : Int) := by
    rw [List.count_cons]
    omega
  exact min_le_min h1 h2

lemma specCorrectCount_cons_same (a : Int) (s g : Code)
    (h0 : 0 ≤ a) (h7 : a ≤ 7) :
    specCorrectCount (a :: s) (a :: g) = specCorrectCount s g + 1 := by
  unfold specCorrectCount
  have hterm : ∀ v ∈ Finset.range 8,
      min ((a :: s).count (v : Int)) ((a :: g).count (v : Int))
        = min (s.count (v : Int)) (g.count (v : Int))
          + (if ((v : Int) = a) then (1 : ℕ) else 0) := by
    intro v _
    simp only [List.count_cons, beq_iff_eq]
    by_cases hva : (v : Int) = a
    · simp only [if_pos hva, if_pos hva.symm]
      omega
    · have hva2 : ¬ a = (v : Int) := fun hc => hva hc.symm
      simp only [if_neg hva, if_neg hva2]
      omega
  rw [Finset.sum_congr rfl hterm, Finset.sum_add_distrib, sum_indicator_eq,
    if_pos ⟨h0, h7⟩]

lemma countMatches_le_specCorrectCount (s g : Code)
    (hlen : g.length = s.length) (hs : ∀ d ∈ s, 0 ≤ d ∧ d ≤ 7) :
    countMatches s g ≤ specCorrectCount s g := by
  induction s generalizing g with
  | nil =>
    cases g with
    | nil => simp [countMatches]
    | cons b g => simp at hlen
  | cons a s ih =>
    cases g with
    | nil => simp at hlen
    | cons b g =>
      simp only [List.length_cons, Nat.succ.injEq] at hlen
      have ha := hs a (List.mem_cons_self a s)
      have hs' : ∀ d ∈ s, 0 ≤ d ∧ d ≤ 7 :=
        fun d hd => hs d (List.mem_cons_of_mem a hd)
      rw [countMatches_cons]
      by_cases hab : a = b
      · subst hab
        rw [if_pos rfl, specCorrectCount_cons_same a s g ha.1 ha.2]
        have := ih g hlen hs'
        omega
      · rw [if_neg hab, Nat.zero_add]
        calc countMatches s g ≤ specCorrectCount s g := ih g hlen hs'
          _ ≤ specCorrectCount (a :: s) (b :: g) := specCorrectCount_cons_le a b s g

lemma countMatches_le_length (s g : Code) : countMatches s g ≤ s.length := by
  induction s generalizing g with
  | nil => simp [countMatches]
  | cons a s ih =>
    cases g with
    | nil => simp [countMatches]
    | cons b g =>
      rw [countMatches_cons]
      have := ih g
      simp only [List.length_cons]
      split <;> omega

lemma allMatch_iff (s g : Code) (h : g.length = s.length) :
    allMatch s g = true ↔ ∀ i, i < s.length → s.getD i 0 = g.getD i 0 := by
  induction s generalizing g with
  | nil =>
    cases g with
    | nil => simp [allMatch]
    | cons b g => simp at h
  | cons a s ih =>
    cases g with
    | nil => simp at h
    | cons b g =>
      simp only [List.length_cons, Nat.succ.injEq] at h
      simp only [allMatch, Bool.and_eq_true, decide_eq_true_eq, List.length_cons]
      rw [ih g h]
      constructor
      · rintro ⟨hab, hrest⟩ i hi
        cases i with
        | zero => simpa using hab
        | succ i =>
          simpa [List.getD_cons_succ] using hrest i (by omega)
      · intro hall
        refine ⟨by simpa using hall 0 (by omega), fun i hi => ?_⟩
        simpa [List.getD_cons_succ] using hall (i + 1) (by omega)

lemma allMatch_iff_countMatches (s g : Code) (h : g.length = s.length) :
    allMatch s g = true ↔ countMatches s g = s.length := by
  induction s generalizing g with
  | nil =>
    cases g with
    | nil => simp [allMatch, countMatches]
    | cons b g => simp at h
  | cons a s ih =>
    cases g with
    | nil => simp at h
    | cons b g =>
      simp only [List.length_cons, Nat.succ.injEq] at h
      simp only [allMatch, Bool.and_eq_true, decide_eq_true_eq, List.length_cons,
        countMatches_cons]
      rw [ih g h]
      have hle := countMatches_le_length s g
      constructor
      · rintro ⟨hab, hc⟩
        rw [if_pos hab]
        omega
      · intro hc
        by_cases hab : a = b
        · rw [if_pos hab] at hc
          exact ⟨hab, by omega⟩
        · rw [if_neg hab] at hc
          omega

lemma score_guess_ok_inv (s g : Code) (cn cp : Nat)
    (h : score_guess s g = Except.ok (cn, cp)) :
    g.length = s.length ∧ 0 < s.length
      ∧ cn = sumMins (fillCounts s) (fillCounts g) ∧ cp = countMatches s g := by
  simp only [score_guess] at h
  split at h
  · exact absurd h (by simp)
  · rename_i hc
    push_neg at hc
    simp only [Except.ok.injEq, Prod.mk.injEq] at h
    exact ⟨hc.2, Nat.pos_of_ne_zero hc.1, h.1.symm, h.2.symm⟩

lemma score_guess_eq (secret guess : Code)
    (hlen : guess.length = secret.length) (hpos : 0 < secret.length) :
    score_guess secret guess
      = Except.ok (specCorrectCount secret guess,
                   specCorrectPositions secret guess) := by
  unfold score_guess
  have hcond : ¬ (secret.length = 0 ∨ guess.length ≠ secret.length) := by
    push_neg
    exact ⟨by omega, hlen⟩
  simp only [hcond, if_false]
  rw [countMatches_eq_spec secret guess hlen, sumMins_eq_spec]

/-! ## Scoreboard-update lemmas -/

lemma updateStatsOnEnd_won_eq (st : Stats) (g : Game) :
    updateStatsOnEnd st g true =
      { games_started := st.games_started,
        games_won := st.games_won + 1,
        games_lost := st.games_lost,
        current_streak := st.current_streak + 1,
        best_streak := if st.current_streak + 1 > st.best_streak
          then st.current_streak + 1 else st.best_streak,
        total_guesses_in_wins := st.total_guesses_in_wins
          + (g.initial_attempts - g.attempts_left),
        fastest_win_attempts := some
          (match st.fastest_win_attempts with
           | none => g.initial_attempts - g.attempts_left
           | some f => if g.initial_attempts - g.attempts_left < f
               then g.initial_attempts - g.attempts_left else f),
        easy_started := st.easy_started,
        medium_started := st.medium_started,
        hard_started := st.hard_started,
        easy_won := st.easy_won
          + (if g.difficulty = Difficulty.easy then 1 else 0),
        medium_won := st.medium_won
          + (if g.difficulty = Difficulty.medium then 1 else 0),
        hard_won := st.hard_won
          + (if g.difficulty = Difficulty.hard then 1 else 0) } := by
  cases hd : g.difficulty <;> cases hf : st.fastest_win_attempts <;>
    simp only [updateStatsOnEnd, hd, reduceIte, eq_self_iff_true, if_true]
  all_goals by_cases hb : st.best_streak < st.current_streak + 1
  all_goals first
    | simp only [if_pos hb]
    | simp only [if_neg hb]
  all_goals rw [hf]
  all_goals try dsimp only
  all_goals try split
  all_goals simp only [Stats.mk.injEq, Option.some.injEq, reduceIte,
    reduceCtorEq, add_zero, and_true, true_and]
  all_goals try contradiction

lemma updateStatsOnEnd_lost_eq (st : Stats) (g : Game) :
    updateStatsOnEnd st g false
      = { st with games_lost := st.games_lost + 1, current_streak := 0 } := by
  simp [updateStatsOnEnd]

lemma updateStatsOnEnd_streak (st : Stats) (g : Game) (w : Bool)
    (h0 : 0 ≤ st.current_streak)
    (hle : st.current_streak ≤ st.best_streak) :
    0 ≤ (updateStatsOnEnd st g w).current_streak
      ∧ (updateStatsOnEnd st g w).current_streak
          ≤ (updateStatsOnEnd st g w).best_streak := by
  cases w with
  | false =>
    rw [updateStatsOnEnd_lost_eq]
    dsimp only
    omega
  | true =>
    rw [updateStatsOnEnd_won_eq]
    dsimp only
    split <;> omega

/-! ## Store-operation computation lemmas -/

lemma createOp_game (s : GameStore) (c : Code) (a : Int) (d : Difficulty) :
    (createOp s c a d).1 =
      { secret := c, attempts_left := a, status := GameStatus.in_progress,
        history := [], initial_attempts := a, difficulty := d,
        hint_used := false, revealed_positions := [] } := rfl

lemma createOp_games (s : GameStore) (c : Code) (a : Int) (d : Difficulty)
    (i : Nat) :
    (createOp s c a d).2.games i
      = if i = s.next_id then some (createOp s c a d).1 else s.games i := by
  cases d <;> rfl

lemma createOp_next_id (s : GameStore) (c : Code) (a : Int) (d : Difficulty) :
    (createOp s c a d).2.next_id = s.next_id + 1 := by
  cases d <;> rfl

lemma createOp_outcome_calls (s : GameStore) (c : Code) (a : Int)
    (d : Difficulty) :
    (createOp s c a d).2.outcome_calls = s.outcome_calls := by
  cases d <;> rfl

lemma createOp_streaks (s : GameStore) (c : Code) (a : Int) (d : Difficulty) :
    (createOp s c a d).2.stats.current_streak = s.stats.current_streak
      ∧ (createOp s c a d).2.stats.best_streak = s.stats.best_streak := by
  cases d <;> exact ⟨rfl, rfl⟩

lemma terminalCount_some (g : Game) :
    terminalCount (some g)
      = if g.status = GameStatus.in_progress then 0 else 1 := rfl

/-! ## Invariant preservation -/

lemma storeInv_init : StoreInv initialStore := by
  constructor
  · intro id _
    rfl
  · intro id g hg
    exact absurd hg (by simp [initialStore])
  · intro id
    rfl
  · exact le_refl 0
  · exact le_refl 0

lemma lt_next_of_some {s : GameStore} (h : StoreInv s) {id : Nat} {g : Game}
    (hg : s.games id = some g) : id < s.next_id := by
  by_contra hle
  rw [h.fresh id (by omega)] at hg
  exact Option.noConfusion hg

lemma storeInv_create (s : GameStore) (c : Code) (a : Int) (d : Difficulty)
    (h : StoreInv s) : StoreInv (createOp s c a d).2 := by
  constructor
  · intro id hid
    rw [createOp_next_id] at hid
    rw [createOp_games, if_neg (by omega)]
    exact h.fresh id (by omega)
  · intro id g hg
    rw [createOp_games] at hg
    by_cases hid : id = s.next_id
    · rw [if_pos hid, createOp_game] at hg
      injection hg with hg
      subst hg
      simp
    · rw [if_neg hid] at hg
      exact h.hist_len id g hg
  · intro id
    rw [createOp_outcome_calls, createOp_games]
    by_cases hid : id = s.next_id
    · rw [if_pos hid, createOp_game, h.calls id, hid,
        h.fresh s.next_id (le_refl _)]
      rfl
    · rw [if_neg hid]
      exact h.calls id
  · rw [(createOp_streaks s c a d).1]
    exact h.streak_nonneg
  · rw [(createOp_streaks s c a d).1, (createOp_streaks s c a d).2]
    exact h.streak_le

lemma storeInv_reset (s : GameStore) (h : StoreInv s) :
    StoreInv (resetStats s) := by
  constructor
  · exact h.fresh
  · exact h.hist_len
  · exact h.calls
  · exact le_refl 0
  · exact le_refl 0

lemma storeInv_hint (s : GameStore) (id idx : Nat) (h : StoreInv s) :
    StoreInv (giveHint s id idx).2 := by
  unfold giveHint
  cases hg : s.games id with
  | none => exact h
  | some game =>
    dsimp only
    by_cases hst : game.status ≠ GameStatus.in_progress
    · rw [if_pos hst]
      exact h
    · rw [if_neg hst]
      by_cases hu : game.hint_used = true
      · rw [if_pos hu]
        exact h
      · rw [if_neg hu]
        by_cases hall : game.secret.length ≤ game.revealed_positions.length
        · rw [if_pos hall]
          exact h
        · rw [if_neg hall]
          by_cases hidx : idx < game.secret.length
              ∧ idx ∉ game.revealed_positions
          · rw [if_pos hidx]
            have hlt := lt_next_of_some h hg
            constructor
            · intro i hi
              dsimp only at hi ⊢
              rw [if_neg (by omega : ¬ i = id)]
              exact h.fresh i hi
            · intro i g hgi
              dsimp only at hgi
              by_cases hii : i = id
              · subst hii
                rw [if_pos rfl] at hgi
                injection hgi with hgi
                subst hgi
                dsimp only
                exact h.hist_len i game hg
              · rw [if_neg hii] at hgi
                exact h.hist_len i g hgi
            · intro i
              dsimp only
              by_cases hii : i = id
              · subst hii
                rw [if_pos rfl, h.calls i, hg, terminalCount_some,
                  terminalCount_some]
              · rw [if_neg hii]
                exact h.calls i
            · exact h.streak_nonneg
            · exact h.streak_le
          · rw [if_neg hidx]
            exact h

lemma hist_len_applyGuess (game : Game) (attempt : Code) (cn cp : Nat)
    (hh : (game.history.length : Int)
      = game.initial_attempts - game.attempts_left) :
    (((applyGuess game attempt cn cp).history.length : Int)
      = (applyGuess game attempt cn cp).initial_attempts
        - (applyGuess game attempt cn cp).attempts_left) := by
  dsimp only [applyGuess]
  simp only [List.length_append, List.length_singleton]
  push_cast
  omega

lemma storeInv_guess (s : GameStore) (id : Nat) (attempt : Code)
    (h : StoreInv s) : StoreInv (guessOp s id attempt).2 := by
  unfold guessOp
  cases hg : s.games id with
  | none => exact h
  | some game =>
    dsimp only
    by_cases hst : game.status ≠ GameStatus.in_progress
    · rw [if_pos hst]
      exact h
    · rw [if_neg hst]
      push_neg at hst
      by_cases hlen : game.secret.length ≠ attempt.length
      · rw [if_pos hlen]
        exact h
      · rw [if_neg hlen]
        cases hsc : score_guess game.secret attempt with
        | error e => exact h
        | ok pr =>
          obtain ⟨cn, cp⟩ := pr
          dsimp only
          have hlt := lt_next_of_some h hg
          have hhl := h.hist_len id game hg
          by_cases hterm : nextStatus game attempt = GameStatus.won
              ∨ nextStatus game attempt = GameStatus.lost
          · rw [if_pos hterm]
            constructor
            · intro i hi
              dsimp only at hi ⊢
              rw [if_neg (by omega : ¬ i = id)]
              exact h.fresh i hi
            · intro i g hgi
              dsimp only at hgi
              by_cases hii : i = id
              · subst hii
                rw [if_pos rfl] at hgi
                injection hgi with hgi
                subst hgi
                exact hist_len_applyGuess game attempt cn cp hhl
              · rw [if_neg hii] at hgi
                exact h.hist_len i g hgi
            · intro i
              dsimp only
              by_cases hii : i = id
              · subst hii
                rw [if_pos rfl, if_pos rfl, h.calls i, hg, terminalCount_some,
                  terminalCount_some, if_pos hst]
                have hsa : (applyGuess game attempt cn cp).status
                    = nextStatus game attempt := rfl
                rw [hsa]
                rcases hterm with ht | ht <;> rw [ht] <;> decide
              · rw [if_neg hii, if_neg hii]
                exact h.calls i
            · dsimp only
              exact (updateStatsOnEnd_streak s.stats _ _
                h.streak_nonneg h.streak_le).1
            · dsimp only
              exact (updateStatsOnEnd_streak s.stats _ _
                h.streak_nonneg h.streak_le).2
          · rw [if_neg hterm]
            push_neg at hterm
            have hs1 : nextStatus game attempt = GameStatus.in_progress := by
              cases hx : nextStatus game attempt
              · rfl
              · exact absurd hx hterm.1
              · exact absurd hx hterm.2
            constructor
            · intro i hi
              dsimp only at hi ⊢
              rw [if_neg (by omega : ¬ i = id)]
              exact h.fresh i hi
            · intro i g hgi
              dsimp only at hgi
              by_cases hii : i = id
              · subst hii
                rw [if_pos rfl] at hgi
                injection hgi with hgi
                subst hgi
                exact hist_len_applyGuess game attempt cn cp hhl
              · rw [if_neg hii] at hgi
                exact h.hist_len i g hgi
            · intro i
              dsimp only
              by_cases hii : i = id
              · subst hii
                rw [if_pos rfl, h.calls i, hg, terminalCount_some,
                  terminalCount_some, if_pos hst]
                have hsa : (applyGuess game attempt cn cp).status
                    = nextStatus game attempt := rfl
                rw [hsa, hs1]
                decide
              · rw [if_neg hii]
                exact h.calls i
            · exact h.streak_nonneg
            · exact h.streak_le

/-- Every reachable store satisfies the invariant. -/
lemma reachable_inv (s : GameStore) (h : Reachable s) : StoreInv s := by
  induction h with
  | init => exact storeInv_init
  | create s c a d _ ih => exact storeInv_create s c a d ih
  | guess s id attempt _ ih => exact storeInv_guess s id attempt ih
  | hint s id idx _ ih => exact storeInv_hint s id idx ih
  | reset s _ ih => exact storeInv_reset s ih

/-! ## Claim theorems for the scoring engine -/

example : score_guess [0, 1, 3, 5] [0, 2, 4, 6] = Except.ok (1, 1) := rfl

example : score_guess [2, 2, 5, 5] [2, 5, 2, 5] = Except.ok (4, 2) := rfl

example : is_win [1, 2, 3, 4] [1, 2, 3, 4] = true := rfl

/-- C1: for every secret and guess of equal positive length, `score_guess`
returns the pair `(correct_count, correct_position_count)` where
`correct_position_count` is the number of indices `i` with
`secret[i] == guess[i]`, and `correct_count` is the sum over every digit
value `v` in the alphabet `[0,7]` of `min(count of v in secret, count of
v in guess)`; out-of-range digits are excluded from the value-overlap
tally (they contribute to no `v` in the alphabet) but still participate
in the positional comparison (`specCorrectPositions` ranges over all
indices). -/
theorem score_guess_spec (secret guess : Code)
    (hlen : guess.length = secret.length) (hpos : 0 < secret.length) :
    score_guess secret guess
      = Except.ok (specCorrectCount secret guess,
                   specCorrectPositions secret guess) :=
  score_guess_eq secret guess hlen hpos

theorem score_guess_spec_witness :
    ([0, 2, 4, 6] : Code).length = ([0, 1, 3, 5] : Code).length
      ∧ 0 < ([0, 1, 3, 5] : Code).length
      ∧ score_guess [0, 1, 3, 5] [0, 2, 4, 6]
          = Except.ok (specCorrectCount [0, 1, 3, 5] [0, 2, 4, 6],
                       specCorrectPositions [0, 1, 3, 5] [0, 2, 4, 6]) :=
  ⟨by decide, by decide,
   score_guess_spec [0, 1, 3, 5] [0, 2, 4, 6] (by decide) (by decide)⟩

/-- C6 as stated is false: with unrestricted digits, `secret = [8]` and
`guess = [8]` have equal positive length, yet `score_guess` returns
`(correct_count, correct_position_count) = (0, 1)` because the matching
digit `8` lies outside the alphabet `[0,7]` and is excluded from the
value-overlap tally, so `correct_position_count ≤ correct_count`
fails. -/
theorem score_bounds_counterexample :
    score_guess [8] [8] = Except.ok (0, 1) ∧ ¬ ((1 : Nat) ≤ 0) :=
  ⟨rfl, by decide⟩

/-- C6 amended: for every secret and guess of equal positive length,
`correct_count ≤ length` holds unconditionally, and
`correct_position_count ≤ correct_count` holds provided every digit of
the secret lies in the alphabet `[0,7]` (a positional match duplicates
the secret's digit, so in-range secrets make every positional match
count toward the value overlap). -/
theorem score_bounds (secret guess : Code)
    (hlen : guess.length = secret.length) (hpos : 0 < secret.length) :
    ∀ cn cp, score_guess secret guess = Except.ok (cn, cp) →
      cn ≤ secret.length
        ∧ ((∀ d ∈ secret, 0 ≤ d ∧ d ≤ 7) → cp ≤ cn) := by
  intro cn cp h
  obtain ⟨hl, hp, hcn, hcp⟩ := score_guess_ok_inv secret guess cn cp h
  subst hcn
  subst hcp
  rw [sumMins_eq_spec]
  constructor
  · exact specCorrectCount_le_length secret guess
  · intro hs
    exact countMatches_le_specCorrectCount secret guess hl hs

theorem score_bounds_witness :
    (4 : Nat) ≤ ([2, 2, 5, 5] : Code).length ∧ (2 : Nat) ≤ 4 :=
  ⟨(score_bounds [2, 2, 5, 5] [2, 5, 2, 5] (by decide) (by decide)
      4 2 (by rfl)).1,
   (score_bounds [2, 2, 5, 5] [2, 5, 2, 5] (by decide) (by decide)
      4 2 (by rfl)).2 (by decide)⟩

/-- C7: `is_win(secret, guess)` is true iff the lengths match, the
length is positive, and every position matches; and whenever
`score_guess` succeeds (which requires matching positive lengths),
`is_win` is equivalent to `correct_position_count == length`. -/
theorem is_win_correct (s g : Code) :
    (is_win s g = true ↔
      (g.length = s.length ∧ 0 < s.length
        ∧ ∀ i, i < s.length → s.getD i 0 = g.getD i 0))
    ∧ (∀ cn cp, score_guess s g = Except.ok (cn, cp) →
        (is_win s g = true ↔ cp = s.length)) := by
  constructor
  · unfold is_win
    by_cases hc : s.length = 0 ∨ g.length ≠ s.length
    · rw [if_pos hc]
      simp only [Bool.false_eq_true, false_iff]
      rintro ⟨hlen, hpos, _⟩
      rcases hc with hc | hc
      · omega
      · exact hc hlen
    · push_neg at hc
      rw [if_neg (by push_neg; exact hc), allMatch_iff s g hc.2]
      have h0 : 0 < s.length := Nat.pos_of_ne_zero hc.1
      constructor
      · intro hall
        exact ⟨hc.2, h0, hall⟩
      · rintro ⟨_, _, hall⟩
        exact hall
  · intro cn cp h
    obtain ⟨hl, hp, _, hcp⟩ := score_guess_ok_inv s g cn cp h
    subst hcp
    unfold is_win
    rw [if_neg (by push_neg; exact ⟨by omega, hl⟩)]
    exact allMatch_iff_countMatches s g hl

theorem is_win_correct_witness :
    score_guess ([1, 2, 3, 4] : Code) [1, 2, 3, 4] = Except.ok (4, 4)
      ∧ is_win [1, 2, 3, 4] [1, 2, 3, 4] = true :=
  ⟨by rfl,
   ((is_win_correct [1, 2, 3, 4] [1, 2, 3, 4]).2 4 4 (by rfl)).mpr (by decide)⟩

/-! ## DB store lemmas -/

lemma dbUpdateStats_won_eq (st : Stats) (g : DBGame) :
    dbUpdateStats st g true =
      { games_started := st.games_started,
        games_won := st.games_won + 1,
        games_lost := st.games_lost,
        current_streak := st.current_streak + 1,
        best_streak := if st.current_streak + 1 > st.best_streak
          then st.current_streak + 1 else st.best_streak,
        total_guesses_in_wins := st.total_guesses_in_wins
          + (g.initial_attempts - g.attempts_left),
        fastest_win_attempts := some
          (match st.fastest_win_attempts with
           | none => g.initial_attempts - g.attempts_left
           | some f => if g.initial_attempts - g.attempts_left < f
               then g.initial_attempts - g.attempts_left else f),
        easy_started := st.easy_started,
        medium_started := st.medium_started,
        hard_started := st.hard_started,
        easy_won := st.easy_won
          + (if g.difficulty = Difficulty.easy then 1 else 0),
        medium_won := st.medium_won
          + (if g.difficulty = Difficulty.medium then 1 else 0),
        hard_won := st.hard_won
          + (if g.difficulty = Difficulty.hard then 1 else 0) } := by
  cases hd : g.difficulty <;> cases hf : st.fastest_win_attempts <;>
    simp only [dbUpdateStats, hd, reduceIte, eq_self_iff_true, if_true]
  all_goals by_cases hb : st.best_streak < st.current_streak + 1
  all_goals first
    | simp only [if_pos hb]
    | simp only [if_neg hb]
  all_goals rw [hf]
  all_goals try dsimp only
  all_goals try split
  all_goals simp only [Stats.mk.injEq, Option.some.injEq, reduceIte,
    reduceCtorEq, add_zero, and_true, true_and]
  all_goals try contradiction

lemma dbUpdateStats_lost_eq (st : Stats) (g : DBGame) :
    dbUpdateStats st g false
      = { st with games_lost := st.games_lost + 1, current_streak := 0 } := by
  simp [dbUpdateStats]

lemma filter_snoc_rows (gs : List (Nat × GuessEntry)) (id i : Nat)
    (e : GuessEntry) :
    ((gs ++ [(id, e)]).filter (fun p => p.1 = i)).map Prod.snd
      = ((gs.filter (fun p => p.1 = i)).map Prod.snd)
        ++ (if id = i then [e] else []) := by
  rw [List.filter_append, List.map_append]
  congr 1
  by_cases hii : id = i
  · subst hii
    simp
  · simp [hii]

lemma filter_rows_nil (gs : List (Nat × GuessEntry)) (id : Nat)
    (h : ∀ p ∈ gs, p.1 ≠ id) : gs.filter (fun p => p.1 = id) = [] := by
  induction gs with
  | nil => rfl
  | cons p rest ih =>
    rw [List.filter_cons, if_neg (by
      simp only [decide_eq_true_eq]
      exact h p (List.mem_cons_self p rest))]
    exact ih (fun q hq => h q (List.mem_cons_of_mem p hq))

lemma historyOf_eq_nil (db : DBStore) (id : Nat)
    (h : ∀ p ∈ db.guesses, p.1 ≠ id) : historyOf db id = [] := by
  unfold historyOf
  rw [filter_rows_nil db.guesses id h]
  rfl

lemma statsRowOf_dbStepStore (db : DBStore) (id : Nat) (attempt : Code)
    (cn cp : Nat) (game : DBGame) :
    statsRowOf (dbStepStore db id attempt cn cp game) = statsRowOf db := rfl

lemma db_hist_len_step (db : DBStore) (id : Nat) (attempt : Code)
    (cn cp : Nat) (game : DBGame)
    (hh : ((historyOf db id).length : Int)
      = game.initial_attempts - game.attempts_left) :
    ((historyOf db id ++ [mkEntry attempt cn cp]).length : Int)
      = (dbApplyGuess game attempt).initial_attempts
        - (dbApplyGuess game attempt).attempts_left := by
  dsimp only [dbApplyGuess]
  simp only [List.length_append, List.length_singleton]
  push_cast
  omega

lemma dbStoreInv_init : DBStoreInv dbInitialStore := by
  constructor
  · intro id _
    rfl
  · intro p hp
    exact absurd hp (by simp [dbInitialStore])
  · intro id g hg
    exact absurd hg (by simp [dbInitialStore])
  · intro id
    rfl

lemma db_lt_next_of_some {db : DBStore} (h : DBStoreInv db) {id : Nat}
    {g : DBGame} (hg : db.games id = some g) : id < db.next_id := by
  by_contra hle
  rw [h.fresh id (by omega)] at hg
  exact Option.noConfusion hg

lemma dbStoreInv_create (db : DBStore) (c : Code) (a : Int)
    (d : Difficulty) (h : DBStoreInv db) :
    DBStoreInv (dbCreate db c a d).2 := by
  constructor
  · intro i hi
    dsimp only [dbCreate] at hi ⊢
    rw [if_neg (by omega : ¬ i = db.next_id)]
    exact h.fresh i (by omega)
  · intro p hp
    dsimp only [dbCreate] at hp ⊢
    exact Nat.lt_succ_of_lt (h.rows_lt p hp)
  · intro i g hgi
    dsimp only [dbCreate] at hgi
    have hhist : historyOf (dbCreate db c a d).2 i = historyOf db i := rfl
    rw [hhist]
    by_cases hii : i = db.next_id
    · subst hii
      rw [if_pos rfl] at hgi
      injection hgi with hgi
      subst hgi
      have hnil : historyOf db db.next_id = [] :=
        historyOf_eq_nil db db.next_id
          (fun p hp => by
            have := h.rows_lt p hp
            omega)
      rw [hnil]
      dsimp only [dbNewGame]
      simp
    · rw [if_neg hii] at hgi
      exact h.hist_len i g hgi
  · intro i
    dsimp only [dbCreate]
    by_cases hii : i = db.next_id
    · rw [if_pos hii, h.calls i, hii, h.fresh db.next_id (le_refl _)]
      rfl
    · rw [if_neg hii]
      exact h.calls i

lemma dbStoreInv_reset (db : DBStore) (h : DBStoreInv db) :
    DBStoreInv (dbResetStats db) := by
  constructor
  · exact h.fresh
  · exact h.rows_lt
  · intro i g hgi
    have hhist : historyOf (dbResetStats db) i = historyOf db i := rfl
    rw [hhist]
    exact h.hist_len i g hgi
  · exact h.calls

lemma dbStoreInv_hint (db : DBStore) (id idx : Nat) (h : DBStoreInv db) :
    DBStoreInv (dbGiveHint db id idx).2 := by
  unfold dbGiveHint
  cases hg : db.games id with
  | none => exact h
  | some game =>
    dsimp only
    by_cases hst : game.status ≠ GameStatus.in_progress
    · rw [if_pos hst]
      exact h
    · rw [if_neg hst]
      by_cases hu : game.hint_used = true
      · rw [if_pos hu]
        exact h
      · rw [if_neg hu]
        by_cases hall : game.secret.length ≤ game.revealed_positions.length
        · rw [if_pos hall]
          exact h
        · rw [if_neg hall]
          by_cases hidx : idx < game.secret.length
              ∧ idx ∉ game.revealed_positions
          · rw [if_pos hidx]
            have hlt := db_lt_next_of_some h hg
            constructor
            · intro i hi
              dsimp only at hi ⊢
              rw [if_neg (by omega : ¬ i = id)]
              exact h.fresh i hi
            · intro p hp
              dsimp only at hp ⊢
              exact h.rows_lt p hp
            · intro i g hgi
              dsimp only at hgi
              by_cases hii : i = id
              · subst hii
                rw [if_pos rfl] at hgi
                injection hgi with hgi
                subst hgi
                dsimp only
                exact h.hist_len i game hg
              · rw [if_neg hii] at hgi
                exact h.hist_len i g hgi
            · intro i
              dsimp only
              by_cases hii : i = id
              · subst hii
                rw [if_pos rfl, h.calls i, hg]
                rfl
              · rw [if_neg hii]
                exact h.calls i
          · rw [if_neg hidx]
            exact h

lemma dbTerminalCount_some (g : DBGame) :
    dbTerminalCount (some g)
      = if g.status = GameStatus.in_progress then 0 else 1 := rfl

lemma dbStoreInv_guess (db : DBStore) (id : Nat) (attempt : Code)
    (h : DBStoreInv db) : DBStoreInv (dbGuess db id attempt).2 := by
  unfold dbGuess
  cases hg : db.games id with
  | none => exact h
  | some game =>
    dsimp only
    by_cases hst : game.status ≠ GameStatus.in_progress
    · rw [if_pos hst]
      exact h
    · rw [if_neg hst]
      push_neg at hst
      by_cases hlen : game.secret.length ≠ attempt.length
      · rw [if_pos hlen]
        exact h
      · rw [if_neg hlen]
        cases hsc : score_guess game.secret attempt with
        | error e => exact h
        | ok pr =>
          obtain ⟨cn, cp⟩ := pr
          dsimp only
          have hlt := db_lt_next_of_some h hg
          have hhl := h.hist_len id game hg
          unfold historyOf at hhl
          by_cases hterm : dbNextStatus game attempt = GameStatus.won
              ∨ dbNextStatus game attempt = GameStatus.lost
          · rw [if_pos hterm]
            constructor
            · intro i hi
              dsimp only [dbUpdateStatsOnEnd, dbStepStore] at hi ⊢
              rw [if_neg (by omega : ¬ i = id)]
              exact h.fresh i hi
            · intro p hp
              dsimp only [dbUpdateStatsOnEnd, dbStepStore] at hp ⊢
              rcases List.mem_append.mp hp with hp | hp
              · exact h.rows_lt p hp
              · rw [List.mem_singleton] at hp
                subst hp
                exact hlt
            · intro i g hgi
              dsimp only [dbUpdateStatsOnEnd, dbStepStore] at hgi
              by_cases hii : i = id
              · subst hii
                rw [if_pos rfl] at hgi
                injection hgi with hgi
                subst hgi
                show ((((db.guesses ++ [(i, mkEntry attempt cn cp)]).filter
                    (fun p => p.1 = i)).map Prod.snd).length : Int)
                  = (dbApplyGuess game attempt).initial_attempts
                    - (dbApplyGuess game attempt).attempts_left
                rw [filter_snoc_rows, if_pos rfl]
                dsimp only [dbApplyGuess]
                simp only [List.length_append, List.length_singleton]
                push_cast
                omega
              · rw [if_neg hii] at hgi
                show ((((db.guesses ++ [(id, mkEntry attempt cn cp)]).filter
                    (fun p => p.1 = i)).map Prod.snd).length : Int)
                  = g.initial_attempts - g.attempts_left
                rw [filter_snoc_rows,
                  if_neg (fun hc => hii hc.symm), List.append_nil]
                exact h.hist_len i g hgi
            · intro i
              dsimp only [dbUpdateStatsOnEnd, dbStepStore]
              by_cases hii : i = id
              · subst hii
                rw [if_pos rfl, if_pos rfl, h.calls i, hg,
                  dbTerminalCount_some, dbTerminalCount_some, if_pos hst]
                have hsa : (dbApplyGuess game attempt).status
                    = dbNextStatus game attempt := rfl
                rw [hsa]
                rcases hterm with ht | ht <;> rw [ht] <;> decide
              · rw [if_neg hii, if_neg hii]
                exact h.calls i
          · rw [if_neg hterm]
            push_neg at hterm
            have hs1 : dbNextStatus game attempt = GameStatus.in_progress := by
              cases hx : dbNextStatus game attempt
              · rfl
              · exact absurd hx hterm.1
              · exact absurd hx hterm.2
            constructor
            · intro i hi
              dsimp only [dbStepStore] at hi ⊢
              rw [if_neg (by omega : ¬ i = id)]
              exact h.fresh i hi
            · intro p hp
              dsimp only [dbStepStore] at hp ⊢
              rcases List.mem_append.mp hp with hp | hp
              · exact h.rows_lt p hp
              · rw [List.mem_singleton] at hp
                subst hp
                exact hlt
            · intro i g hgi
              dsimp only [dbStepStore] at hgi
              by_cases hii : i = id
              · subst hii
                rw [if_pos rfl] at hgi
                injection hgi with hgi
                subst hgi
                show ((((db.guesses ++ [(i, mkEntry attempt cn cp)]).filter
                    (fun p => p.1 = i)).map Prod.snd).length : Int)
                  = (dbApplyGuess game attempt).initial_attempts
                    - (dbApplyGuess game attempt).attempts_left
                rw [filter_snoc_rows, if_pos rfl]
                dsimp only [dbApplyGuess]
                simp only [List.length_append, List.length_singleton]
                push_cast
                omega
              · rw [if_neg hii] at hgi
                show ((((db.guesses ++ [(id, mkEntry attempt cn cp)]).filter
                    (fun p => p.1 = i)).map Prod.snd).length : Int)
                  = g.initial_attempts - g.attempts_left
                rw [filter_snoc_rows,
                  if_neg (fun hc => hii hc.symm), List.append_nil]
                exact h.hist_len i g hgi
            · intro i
              dsimp only [dbStepStore]
              by_cases hii : i = id
              · subst hii
                rw [if_pos rfl, h.calls i, hg, dbTerminalCount_some,
                  dbTerminalCount_some, if_pos hst]
                have hsa : (dbApplyGuess game attempt).status
                    = dbNextStatus game attempt := rfl
                rw [hsa, hs1]
                decide
              · rw [if_neg hii]
                exact h.calls i

/-- Every reachable database satisfies the invariant. -/
lemma db_reachable_inv (db : DBStore) (h : DBReachable db) :
    DBStoreInv db := by
  induction h with
  | init => exact dbStoreInv_init
  | create db c a d _ ih => exact dbStoreInv_create db c a d ih
  | guess db id attempt _ ih => exact dbStoreInv_guess db id attempt ih
  | hint db id idx _ ih => exact dbStoreInv_hint db id idx ih
  | reset db _ ih => exact dbStoreInv_reset db ih

lemma dbGuess_win_eq (db : DBStore) (id : Nat) (attempt : Code)
    (game : DBGame) (cn cp : Nat)
    (hg : db.games id = some game)
    (hst : game.status = GameStatus.in_progress)
    (hlen : game.secret.length = attempt.length)
    (hsc : score_guess game.secret attempt = Except.ok (cn, cp))
    (hwin : dbNextStatus game attempt = GameStatus.won) :
    dbGuess db id attempt =
      (Except.ok (some (toGameState id (dbApplyGuess game attempt)
        (historyOf ({ dbUpdateStatsOnEnd
            (dbStepStore db id attempt cn cp game)
            (dbApplyGuess game attempt) true with
          outcome_calls := fun i =>
            if i = id then db.outcome_calls i + 1
            else db.outcome_calls i }) id))),
       { dbUpdateStatsOnEnd (dbStepStore db id attempt cn cp game)
           (dbApplyGuess game attempt) true with
         outcome_calls := fun i =>
           if i = id then db.outcome_calls i + 1
           else db.outcome_calls i }) := by
  unfold dbGuess
  rw [hg]
  dsimp only
  rw [if_neg (by rw [hst]; exact fun hc => hc rfl)]
  rw [if_neg (by rw [hlen]; exact fun hc => hc rfl)]
  rw [hsc]
  dsimp only
  rw [if_pos (Or.inl hwin), hwin]
  rfl

/-! ## Store lemmas and claim theorems -/

lemma guessOp_win_eq (s : GameStore) (id : Nat) (attempt : Code)
    (game : Game) (cn cp : Nat)
    (hg : s.games id = some game)
    (hst : game.status = GameStatus.in_progress)
    (hlen : game.secret.length = attempt.length)
    (hsc : score_guess game.secret attempt = Except.ok (cn, cp))
    (hwin : nextStatus game attempt = GameStatus.won) :
    guessOp s id attempt =
      (Except.ok (some (applyGuess game attempt cn cp)),
       { s with
           games := fun i =>
             if i = id then some (applyGuess game attempt cn cp)
             else s.games i,
           stats := updateStatsOnEnd s.stats
             (applyGuess game attempt cn cp) true,
           outcome_calls := fun i =>
             if i = id then s.outcome_calls i + 1
             else s.outcome_calls i }) := by
  unfold guessOp
  rw [hg]
  dsimp only
  rw [if_neg (by rw [hst]; exact fun hc => hc rfl)]
  rw [if_neg (by rw [hlen]; exact fun hc => hc rfl)]
  rw [hsc]
  dsimp only
  rw [if_pos (Or.inl hwin), hwin]
  rfl

example : storeW2.games 0 = some gameWonW := by decide

example : gameWonW.status = GameStatus.won := rfl

example : storeW2.outcome_calls 0 = 1 := rfl

/-- C2: submitting any guess — of any length, including a mismatched
one — against a terminal session returns the unchanged current state
without raising: the whole store (history, attempts, status, scoreboard)
is returned untouched.  Both the in-memory `GameStore.guess` and the
DB-backed `DBGameStore.guess` behave this way. -/
theorem terminal_guess_noop (s : GameStore) (db : DBStore) (id jd : Nat)
    (attempt battempt : Code) (game : Game) (dgame : DBGame)
    (hg : s.games id = some game)
    (hterm : game.status ≠ GameStatus.in_progress)
    (hdg : db.games jd = some dgame)
    (hdterm : dgame.status ≠ GameStatus.in_progress) :
    guessOp s id attempt = (Except.ok (some game), s)
      ∧ dbGuess db jd battempt
          = (Except.ok (some (toGameState jd dgame (historyOf db jd))), db) := by
  constructor
  · unfold guessOp
    rw [hg]
    dsimp only
    rw [if_pos hterm]
  · unfold dbGuess
    rw [hdg]
    dsimp only
    rw [if_pos hdterm]

theorem terminal_guess_noop_witness :
    storeW2.games 0 = some gameWonW
      ∧ gameWonW.status ≠ GameStatus.in_progress
      ∧ dbDoneW.games 0 = some dbGameWonW
      ∧ dbGameWonW.status ≠ GameStatus.in_progress
      ∧ guessOp storeW2 0 [9] = (Except.ok (some gameWonW), storeW2)
      ∧ dbGuess dbDoneW 0 [9]
          = (Except.ok (some (toGameState 0 dbGameWonW (historyOf dbDoneW 0))),
             dbDoneW) := by
  refine ⟨by decide, by decide, by decide, by decide, ?_, ?_⟩
  · exact (terminal_guess_noop storeW2 dbDoneW 0 0 [9] [9] gameWonW dbGameWonW
      (by decide) (by decide) (by decide) (by decide)).1
  · exact (terminal_guess_noop storeW2 dbDoneW 0 0 [9] [9] gameWonW dbGameWonW
      (by decide) (by decide) (by decide) (by decide)).2

/-- C3: in every reachable store, every stored session satisfies
`history.length == attempts_total - attempts_left` (the source names
`attempts_total` as `initial_attempts`): each accepted guess appends one
history entry and decrements `attempts_left` by one, and no other
operation changes either. -/
theorem history_length_invariant (s : GameStore) (h : Reachable s) :
    ∀ id g, s.games id = some g →
      (g.history.length : Int) = g.initial_attempts - g.attempts_left :=
  (reachable_inv s h).hist_len

theorem history_length_invariant_witness :
    storeW.games 0 = some gameW
      ∧ ((gameW.history.length : Int)
          = gameW.initial_attempts - gameW.attempts_left) :=
  ⟨by decide,
   history_length_invariant storeW
     (Reachable.create initialStore [1, 2, 3] 8 Difficulty.easy Reachable.init)
     0 gameW (by decide)⟩

/-- C4: in every reachable store of either variant, the ghost counter of
`_update_stats_on_end` invocations for a session equals 1 when the
session is terminal and 0 when it is in progress or absent: the
scoreboard outcome recording runs exactly once per session, precisely on
the guess that makes it terminal, never for an already-terminal session
and never twice — for the in-memory `GameStore.guess` and for the
DB-backed `DBGameStore.guess` alike. -/
theorem outcome_recorded_exactly_once (s : GameStore) (db : DBStore)
    (h : Reachable s) (hdb : DBReachable db) :
    (∀ id, s.outcome_calls id = terminalCount (s.games id))
      ∧ (∀ id, db.outcome_calls id = dbTerminalCount (db.games id)) :=
  ⟨(reachable_inv s h).calls, (db_reachable_inv db hdb).calls⟩

theorem outcome_recorded_exactly_once_witness :
    storeW2.outcome_calls 0 = terminalCount (storeW2.games 0)
      ∧ dbStoreW2.outcome_calls 0 = dbTerminalCount (dbStoreW2.games 0) :=
  ⟨(outcome_recorded_exactly_once storeW2 dbStoreW2
      (Reachable.guess storeW 0 [1, 2, 3]
        (Reachable.create initialStore [1, 2, 3] 8 Difficulty.easy
          Reachable.init))
      (DBReachable.guess dbStoreW 0 [1, 2, 3, 4]
        (DBReachable.create dbInitialStore [1, 2, 3, 4] 10 Difficulty.medium
          DBReachable.init))).1 0,
   (outcome_recorded_exactly_once storeW2 dbStoreW2
      (Reachable.guess storeW 0 [1, 2, 3]
        (Reachable.create initialStore [1, 2, 3] 8 Difficulty.easy
          Reachable.init))
      (DBReachable.guess dbStoreW 0 [1, 2, 3, 4]
        (DBReachable.create dbInitialStore [1, 2, 3, 4] 10 Difficulty.medium
          DBReachable.init))).2 0⟩

example : dbStoreW2.outcome_calls 0 = 1 := rfl

example : (dbStoreW2.games 0).map DBGame.status = some GameStatus.won := rfl

/-- C5: the outcome-recording operation of both store variants —
`GameStore._update_stats_on_end` (`store.py`) and
`DBGameStore._update_stats_on_end` (`repository.py`) — on a win
increments `games_won` and the matching per-difficulty won counter,
increments `current_streak`, raises `best_streak` to the new
`current_streak` exactly when it now exceeds it, adds
`guesses_used = initial_attempts - attempts_left` to
`total_guesses_in_wins`, and lowers `fastest_win_attempts` exactly when
`guesses_used` is smaller than the stored value or no value is set; on a
loss it increments `games_lost` and resets `current_streak` to 0,
touching no other counter. -/
theorem record_outcome_spec (st : Stats) (g : Game) (dg : DBGame) :
    (updateStatsOnEnd st g true =
      { games_started := st.games_started,
        games_won := st.games_won + 1,
        games_lost := st.games_lost,
        current_streak := st.current_streak + 1,
        best_streak := if st.current_streak + 1 > st.best_streak
          then st.current_streak + 1 else st.best_streak,
        total_guesses_in_wins := st.total_guesses_in_wins
          + (g.initial_attempts - g.attempts_left),
        fastest_win_attempts := some
          (match st.fastest_win_attempts with
           | none => g.initial_attempts - g.attempts_left
           | some f => if g.initial_attempts - g.attempts_left < f
               then g.initial_attempts - g.attempts_left else f),
        easy_started := st.easy_started,
        medium_started := st.medium_started,
        hard_started := st.hard_started,
        easy_won := st.easy_won
          + (if g.difficulty = Difficulty.easy then 1 else 0),
        medium_won := st.medium_won
          + (if g.difficulty = Difficulty.medium then 1 else 0),
        hard_won := st.hard_won
          + (if g.difficulty = Difficulty.hard then 1 else 0) })
    ∧ (updateStatsOnEnd st g false
        = { st with games_lost := st.games_lost + 1, current_streak := 0 })
    ∧ (dbUpdateStats st dg true =
      { games_started := st.games_started,
        games_won := st.games_won + 1,
        games_lost := st.games_lost,
        current_streak := st.current_streak + 1,
        best_streak := if st.current_streak + 1 > st.best_streak
          then st.current_streak + 1 else st.best_streak,
        total_guesses_in_wins := st.total_guesses_in_wins
          + (dg.initial_attempts - dg.attempts_left),
        fastest_win_attempts := some
          (match st.fastest_win_attempts with
           | none => dg.initial_attempts - dg.attempts_left
           | some f => if dg.initial_attempts - dg.attempts_left < f
               then dg.initial_attempts - dg.attempts_left else f),
        easy_started := st.easy_started,
        medium_started := st.medium_started,
        hard_started := st.hard_started,
        easy_won := st.easy_won
          + (if dg.difficulty = Difficulty.easy then 1 else 0),
        medium_won := st.medium_won
          + (if dg.difficulty = Difficulty.medium then 1 else 0),
        hard_won := st.hard_won
          + (if dg.difficulty = Difficulty.hard then 1 else 0) })
    ∧ (dbUpdateStats st dg false
        = { st with games_lost := st.games_lost + 1, current_streak := 0 }) :=
  ⟨updateStatsOnEnd_won_eq st g, updateStatsOnEnd_lost_eq st g,
   dbUpdateStats_won_eq st dg, dbUpdateStats_lost_eq st dg⟩

/-- C8 as stated is false: the in-memory store does not silently drop a
length-mismatched guess against an in-progress session — at the concrete
store holding the fresh 3-digit game, guessing `[1, 2]` raises the same
`ValueError` the DB-backed variant raises, instead of returning the
unchanged game. -/
theorem store_variants_counterexample :
    (guessOp storeW 0 [1, 2]).1
        = Except.error "Guess must have exactly 3 digits for this game."
      ∧ ¬ ((guessOp storeW 0 [1, 2]).1 = Except.ok (some gameW)) :=
  ⟨rfl, fun h => Except.noConfusion h⟩

/-- C8 amended: the two store variants agree on length-mismatched
guesses against an in-progress session — both raise a `ValueError` with
the same message and leave their state unchanged. -/
theorem store_variants_agree (s : GameStore) (db : DBStore) (id jd : Nat)
    (attempt battempt : Code) (game : Game) (dgame : DBGame)
    (hg : s.games id = some game)
    (hst : game.status = GameStatus.in_progress)
    (hlen : game.secret.length ≠ attempt.length)
    (hdg : db.games jd = some dgame)
    (hdst : dgame.status = GameStatus.in_progress)
    (hdlen : dgame.secret.length ≠ battempt.length) :
    guessOp s id attempt
        = (Except.error ("Guess must have exactly "
            ++ toString game.secret.length ++ " digits for this game."), s)
      ∧ dbGuess db jd battempt
          = (Except.error ("Guess must have exactly "
              ++ toString dgame.secret.length ++ " digits for this game."), db) := by
  constructor
  · unfold guessOp
    rw [hg]
    dsimp only
    rw [if_neg (by rw [hst]; exact fun hc => hc rfl), if_pos hlen]
  · unfold dbGuess
    rw [hdg]
    dsimp only
    rw [if_neg (by rw [hdst]; exact fun hc => hc rfl), if_pos hdlen]

theorem store_variants_agree_witness :
    storeW.games 0 = some gameW
      ∧ gameW.status = GameStatus.in_progress
      ∧ gameW.secret.length ≠ ([1, 2] : Code).length
      ∧ dbInProgW.games 0 = some dbGameW
      ∧ dbGameW.status = GameStatus.in_progress
      ∧ dbGameW.secret.length ≠ ([1, 2] : Code).length
      ∧ guessOp storeW 0 [1, 2]
          = (Except.error ("Guess must have exactly "
              ++ toString gameW.secret.length ++ " digits for this game."),
             storeW)
      ∧ dbGuess dbInProgW 0 [1, 2]
          = (Except.error ("Guess must have exactly "
              ++ toString dbGameW.secret.length ++ " digits for this game."),
             dbInProgW) := by
  refine ⟨by decide, rfl, by decide, by decide, rfl, by decide, ?_, ?_⟩
  · exact (store_variants_agree storeW dbInProgW 0 0 [1, 2] [1, 2] gameW
      dbGameW (by decide) rfl (by decide) (by decide) rfl (by decide)).1
  · exact (store_variants_agree storeW dbInProgW 0 0 [1, 2] [1, 2] gameW
      dbGameW (by decide) rfl (by decide) (by decide) rfl (by decide)).2

/-- C9: on a winning guess against an in-progress session of a reachable
store, the `guesses_used` value recorded into the scoreboard — the value
added to `total_guesses_in_wins` and compared into
`fastest_win_attempts`, computed as `initial_attempts - attempts_left` —
equals the number of accepted guesses in the session's history including
the winning one, and is at least 1.  This holds for the in-memory
`GameStore` (first conjunct) and for the DB-backed `DBGameStore`, whose
history lives in the guess-row table (second conjunct). -/
theorem win_records_guesses_used (s : GameStore) (id : Nat)
    (attempt : Code) (game : Game)
    (db : DBStore) (jd : Nat) (battempt : Code) (dgame : DBGame)
    (h : Reachable s)
    (hg : s.games id = some game)
    (hst : game.status = GameStatus.in_progress)
    (hlen : game.secret.length = attempt.length)
    (hwin : is_win game.secret attempt = true)
    (hdb : DBReachable db)
    (hdg : db.games jd = some dgame)
    (hdst : dgame.status = GameStatus.in_progress)
    (hdlen : dgame.secret.length = battempt.length)
    (hdwin : is_win dgame.secret battempt = true) :
    (∀ cn cp, score_guess game.secret attempt = Except.ok (cn, cp) →
      (((applyGuess game attempt cn cp).history.length : Int)
          = (applyGuess game attempt cn cp).initial_attempts
            - (applyGuess game attempt cn cp).attempts_left)
      ∧ 1 ≤ (applyGuess game attempt cn cp).history.length
      ∧ (guessOp s id attempt).2.games id
          = some (applyGuess game attempt cn cp)
      ∧ (applyGuess game attempt cn cp).status = GameStatus.won
      ∧ (guessOp s id attempt).2.stats.total_guesses_in_wins
          = s.stats.total_guesses_in_wins
            + ((applyGuess game attempt cn cp).history.length : Int)
      ∧ (guessOp s id attempt).2.stats.fastest_win_attempts
          = some (match s.stats.fastest_win_attempts with
             | none => ((applyGuess game attempt cn cp).history.length : Int)
             | some f =>
                 if ((applyGuess game attempt cn cp).history.length : Int) < f
                 then ((applyGuess game attempt cn cp).history.length : Int)
                 else f))
    ∧ (∀ dn dp, score_guess dgame.secret battempt = Except.ok (dn, dp) →
      (((historyOf (dbGuess db jd battempt).2 jd).length : Int)
          = (dbApplyGuess dgame battempt).initial_attempts
            - (dbApplyGuess dgame battempt).attempts_left)
      ∧ 1 ≤ (historyOf (dbGuess db jd battempt).2 jd).length
      ∧ (dbGuess db jd battempt).2.games jd
          = some (dbApplyGuess dgame battempt)
      ∧ (dbApplyGuess dgame battempt).status = GameStatus.won
      ∧ (statsRowOf (dbGuess db jd battempt).2).total_guesses_in_wins
          = (statsRowOf db).total_guesses_in_wins
            + ((historyOf (dbGuess db jd battempt).2 jd).length : Int)
      ∧ (statsRowOf (dbGuess db jd battempt).2).fastest_win_attempts
          = some (match (statsRowOf db).fastest_win_attempts with
             | none => ((historyOf (dbGuess db jd battempt).2 jd).length : Int)
             | some f =>
                 if ((historyOf (dbGuess db jd battempt).2 jd).length : Int) < f
                 then ((historyOf (dbGuess db jd battempt).2 jd).length : Int)
                 else f)) := by
  constructor
  · intro cn cp hsc
    have hnext : nextStatus game attempt = GameStatus.won := by
      unfold nextStatus
      rw [hwin, if_pos rfl]
    have heq := guessOp_win_eq s id attempt game cn cp hg hst hlen hsc hnext
    have hinv := reachable_inv s h
    have hh := hist_len_applyGuess game attempt cn cp
      (hinv.hist_len id game hg)
    refine ⟨hh, ?_, ?_, ?_, ?_, ?_⟩
    · dsimp only [applyGuess]
      simp only [List.length_append, List.length_singleton]
      omega
    · rw [heq]
      dsimp only
      rw [if_pos rfl]
    · show (applyGuess game attempt cn cp).status = GameStatus.won
      exact hnext
    · rw [heq]
      dsimp only
      rw [updateStatsOnEnd_won_eq]
      dsimp only
      rw [← hh]
    · rw [heq]
      dsimp only
      rw [updateStatsOnEnd_won_eq]
      dsimp only
      rw [← hh]
  · intro dn dp hdsc
    have hdnext : dbNextStatus dgame battempt = GameStatus.won := by
      unfold dbNextStatus
      rw [hdwin, if_pos rfl]
    have heq := dbGuess_win_eq db jd battempt dgame dn dp hdg hdst hdlen
      hdsc hdnext
    have hrow : historyOf (dbGuess db jd battempt).2 jd
        = historyOf db jd ++ [mkEntry battempt dn dp] := by
      rw [heq]
      show (((db.guesses ++ [(jd, mkEntry battempt dn dp)]).filter
          (fun p => p.1 = jd)).map Prod.snd)
        = historyOf db jd ++ [mkEntry battempt dn dp]
      rw [filter_snoc_rows, if_pos rfl]
      rfl
    have hh : ((historyOf (dbGuess db jd battempt).2 jd).length : Int)
        = (dbApplyGuess dgame battempt).initial_attempts
          - (dbApplyGuess dgame battempt).attempts_left := by
      rw [hrow]
      exact db_hist_len_step db jd battempt dn dp dgame
        ((db_reachable_inv db hdb).hist_len jd dgame hdg)
    have hstat : statsRowOf (dbGuess db jd battempt).2
        = dbUpdateStats (statsRowOf db) (dbApplyGuess dgame battempt) true := by
      rw [heq]
      rfl
    refine ⟨hh, ?_, ?_, ?_, ?_, ?_⟩
    · rw [hrow]
      simp only [List.length_append, List.length_singleton]
      omega
    · rw [heq]
      dsimp only [dbUpdateStatsOnEnd, dbStepStore]
      rw [if_pos rfl]
    · show (dbApplyGuess dgame battempt).status = GameStatus.won
      exact hdnext
    · rw [hstat, dbUpdateStats_won_eq]
      dsimp only
      rw [← hh]
    · rw [hstat, dbUpdateStats_won_eq]
      dsimp only
      rw [← hh]

theorem win_records_guesses_used_witness :
    storeW.games 0 = some gameW
      ∧ gameW.status = GameStatus.in_progress
      ∧ gameW.secret.length = ([1, 2, 3] : Code).length
      ∧ is_win gameW.secret [1, 2, 3] = true
      ∧ score_guess gameW.secret [1, 2, 3] = Except.ok (3, 3)
      ∧ dbStoreW.games 0 = some dbGameW
      ∧ dbGameW.status = GameStatus.in_progress
      ∧ dbGameW.secret.length = ([1, 2, 3, 4] : Code).length
      ∧ is_win dbGameW.secret [1, 2, 3, 4] = true
      ∧ score_guess dbGameW.secret [1, 2, 3, 4] = Except.ok (4, 4)
      ∧ (((applyGuess gameW [1, 2, 3] 3 3).history.length : Int)
          = (applyGuess gameW [1, 2, 3] 3 3).initial_attempts
            - (applyGuess gameW [1, 2, 3] 3 3).attempts_left)
      ∧ 1 ≤ (applyGuess gameW [1, 2, 3] 3 3).history.length
      ∧ (guessOp storeW 0 [1, 2, 3]).2.games 0
          = some (applyGuess gameW [1, 2, 3] 3 3)
      ∧ (applyGuess gameW [1, 2, 3] 3 3).status = GameStatus.won
      ∧ (guessOp storeW 0 [1, 2, 3]).2.stats.total_guesses_in_wins
          = storeW.stats.total_guesses_in_wins
            + ((applyGuess gameW [1, 2, 3] 3 3).history.length : Int)
      ∧ (guessOp storeW 0 [1, 2, 3]).2.stats.fastest_win_attempts
          = some (match storeW.stats.fastest_win_attempts with
             | none => ((applyGuess gameW [1, 2, 3] 3 3).history.length : Int)
             | some f =>
                 if ((applyGuess gameW [1, 2, 3] 3 3).history.length : Int) < f
                 then ((applyGuess gameW [1, 2, 3] 3 3).history.length : Int)
                 else f)
      ∧ (((historyOf (dbGuess dbStoreW 0 [1, 2, 3, 4]).2 0).length : Int)
          = (dbApplyGuess dbGameW [1, 2, 3, 4]).initial_attempts
            - (dbApplyGuess dbGameW [1, 2, 3, 4]).attempts_left)
      ∧ 1 ≤ (historyOf (dbGuess dbStoreW 0 [1, 2, 3, 4]).2 0).length
      ∧ (dbGuess dbStoreW 0 [1, 2, 3, 4]).2.games 0
          = some (dbApplyGuess dbGameW [1, 2, 3, 4])
      ∧ (dbApplyGuess dbGameW [1, 2, 3, 4]).status = GameStatus.won
      ∧ (statsRowOf (dbGuess dbStoreW 0 [1, 2, 3, 4]).2).total_guesses_in_wins
          = (statsRowOf dbStoreW).total_guesses_in_wins
            + ((historyOf (dbGuess dbStoreW 0 [1, 2, 3, 4]).2 0).length : Int)
      ∧ (statsRowOf (dbGuess dbStoreW 0 [1, 2, 3, 4]).2).fastest_win_attempts
          = some (match (statsRowOf dbStoreW).fastest_win_attempts with
             | none =>
                 ((historyOf (dbGuess dbStoreW 0 [1, 2, 3, 4]).2 0).length : Int)
             | some f =>
                 if ((historyOf (dbGuess dbStoreW 0 [1, 2, 3, 4]).2 0).length
                     : Int) < f
                 then ((historyOf (dbGuess dbStoreW 0 [1, 2, 3, 4]).2 0).length
                     : Int)
                 else f) := by
  have happ := win_records_guesses_used storeW 0 [1, 2, 3] gameW
    dbStoreW 0 [1, 2, 3, 4] dbGameW
    (Reachable.create initialStore [1, 2, 3] 8 Difficulty.easy Reachable.init)
    (by decide) rfl (by decide) (by decide)
    (DBReachable.create dbInitialStore [1, 2, 3, 4] 10 Difficulty.medium
      DBReachable.init)
    (by decide) rfl (by decide) (by decide)
  have hm := happ.1 3 3 (by rfl)
  have hd := happ.2 4 4 (by rfl)
  exact ⟨by decide, rfl, by decide, by decide, by rfl,
    by decide, rfl, by decide, by decide, by rfl,
    hm.1, hm.2.1, hm.2.2.1, hm.2.2.2.1, hm.2.2.2.2.1, hm.2.2.2.2.2,
    hd.1, hd.2.1, hd.2.2.1, hd.2.2.2.1, hd.2.2.2.2.1, hd.2.2.2.2.2⟩

/-- C10: in every store reachable from the initial all-zero state by any
sequence of creations, guesses and scoreboard resets (hints included),
the scoreboard satisfies `current_streak ≤ best_streak`. -/
theorem streak_le_best (s : GameStore) (h : Reachable s) :
    s.stats.current_streak ≤ s.stats.best_streak :=
  (reachable_inv s h).streak_le

theorem streak_le_best_witness :
    initialStore.stats.current_streak ≤ initialStore.stats.best_streak :=
  streak_le_best initialStore Reachable.init

end Mastermind
